/-
Verification of the fast_dom tree-encoding core against its design document.

The Rust source (src/element.rs, src/lib.rs) is embedded shallowly:
  * the `Element` tag catalog becomes a Lean inductive with the same
    constructors in the same order, `elementCode` being the Rust
    `as u8` discriminant cast (discriminants are assigned 0,1,2,... in
    declaration order and all lie below 256, so the cast is exact);
  * the mutable `Batch` output buffer becomes a one-field structure
    threaded in state-passing style, with `push` appending one byte;
  * byte buffers are `List Nat`; borrowed strings are their UTF-8 byte
    lists.
Parts of the crate referenced from src/element.rs but whose sources are
not part of the excerpt (the `Batch` string/id primitives, `InNamespace`,
`AnyAttribute`, `NodeId`) are modelled from the design document; each such
definition carries a doc comment starting with `Modelled from the spec:`.
-/
import Mathlib

/-- The closed tag catalog of src/element.rs (`pub enum Element`), all 134
variants in source order.  `section` is a Lean keyword so that constructor
name is written with French quotes. -/
inductive Element where
  | a
  | abbr
  | acronym
  | address
  | applet
  | area
  | article
  | aside
  | audio
  | b
  | base
  | bdi
  | bdo
  | bgsound
  | big
  | blink
  | blockquote
  | body
  | br
  | button
  | canvas
  | caption
  | center
  | cite
  | code
  | col
  | colgroup
  | content
  | data
  | datalist
  | dd
  | del
  | details
  | dfn
  | dialog
  | dir
  | div
  | dl
  | dt
  | em
  | embed
  | fieldset
  | figcaption
  | figure
  | font
  | footer
  | form
  | frame
  | frameset
  | h1
  | head
  | header
  | hgroup
  | hr
  | html
  | i
  | iframe
  | image
  | img
  | input
  | ins
  | kbd
  | keygen
  | label
  | legend
  | li
  | link
  | main
  | map
  | mark
  | marquee
  | menu
  | menuitem
  | meta
  | meter
  | nav
  | nobr
  | noembed
  | noframes
  | noscript
  | object
  | ol
  | optgroup
  | option
  | output
  | p
  | param
  | picture
  | plaintext
  | portal
  | pre
  | progress
  | q
  | rb
  | rp
  | rt
  | rtc
  | ruby
  | s
  | samp
  | script
  | «section»
  | select
  | shadow
  | slot
  | small
  | source
  | spacer
  | span
  | strike
  | strong
  | style
  | sub
  | summary
  | sup
  | table
  | tbody
  | td
  | template
  | textarea
  | tfoot
  | th
  | thead
  | time
  | title
  | tr
  | track
  | tt
  | u
  | ul
  | var
  | video
  | wbr
  | xmp
  deriving DecidableEq, Fintype

/-- The Rust discriminant of each catalog variant (the value of the
`*self as u8` cast in `IntoElement for Element`): variants are numbered
0,1,2,... in declaration order. -/
def elementCode : Element → Nat
  | .a => 0
  | .abbr => 1
  | .acronym => 2
  | .address => 3
  | .applet => 4
  | .area => 5
  | .article => 6
  | .aside => 7
  | .audio => 8
  | .b => 9
  | .base => 10
  | .bdi => 11
  | .bdo => 12
  | .bgsound => 13
  | .big => 14
  | .blink => 15
  | .blockquote => 16
  | .body => 17
  | .br => 18
  | .button => 19
  | .canvas => 20
  | .caption => 21
  | .center => 22
  | .cite => 23
  | .code => 24
  | .col => 25
  | .colgroup => 26
  | .content => 27
  | .data => 28
  | .datalist => 29
  | .dd => 30
  | .del => 31
  | .details => 32
  | .dfn => 33
  | .dialog => 34
  | .dir => 35
  | .div => 36
  | .dl => 37
  | .dt => 38
  | .em => 39
  | .embed => 40
  | .fieldset => 41
  | .figcaption => 42
  | .figure => 43
  | .font => 44
  | .footer => 45
  | .form => 46
  | .frame => 47
  | .frameset => 48
  | .h1 => 49
  | .head => 50
  | .header => 51
  | .hgroup => 52
  | .hr => 53
  | .html => 54
  | .i => 55
  | .iframe => 56
  | .image => 57
  | .img => 58
  | .input => 59
  | .ins => 60
  | .kbd => 61
  | .keygen => 62
  | .label => 63
  | .legend => 64
  | .li => 65
  | .link => 66
  | .main => 67
  | .map => 68
  | .mark => 69
  | .marquee => 70
  | .menu => 71
  | .menuitem => 72
  | .meta => 73
  | .meter => 74
  | .nav => 75
  | .nobr => 76
  | .noembed => 77
  | .noframes => 78
  | .noscript => 79
  | .object => 80
  | .ol => 81
  | .optgroup => 82
  | .option => 83
  | .output => 84
  | .p => 85
  | .param => 86
  | .picture => 87
  | .plaintext => 88
  | .portal => 89
  | .pre => 90
  | .progress => 91
  | .q => 92
  | .rb => 93
  | .rp => 94
  | .rt => 95
  | .rtc => 96
  | .ruby => 97
  | .s => 98
  | .samp => 99
  | .script => 100
  | .«section» => 101
  | .select => 102
  | .shadow => 103
  | .slot => 104
  | .small => 105
  | .source => 106
  | .spacer => 107
  | .span => 108
  | .strike => 109
  | .strong => 110
  | .style => 111
  | .sub => 112
  | .summary => 113
  | .sup => 114
  | .table => 115
  | .tbody => 116
  | .td => 117
  | .template => 118
  | .textarea => 119
  | .tfoot => 120
  | .th => 121
  | .thead => 122
  | .time => 123
  | .title => 124
  | .tr => 125
  | .track => 126
  | .tt => 127
  | .u => 128
  | .ul => 129
  | .var => 130
  | .video => 131
  | .wbr => 132
  | .xmp => 133

/-- The source identifier of each catalog variant, as spelled in
src/element.rs.  Used to express claims about which names the catalog
contains. -/
def elementName : Element → String
  | .a => "a"
  | .abbr => "abbr"
  | .acronym => "acronym"
  | .address => "address"
  | .applet => "applet"
  | .area => "area"
  | .article => "article"
  | .aside => "aside"
  | .audio => "audio"
  | .b => "b"
  | .base => "base"
  | .bdi => "bdi"
  | .bdo => "bdo"
  | .bgsound => "bgsound"
  | .big => "big"
  | .blink => "blink"
  | .blockquote => "blockquote"
  | .body => "body"
  | .br => "br"
  | .button => "button"
  | .canvas => "canvas"
  | .caption => "caption"
  | .center => "center"
  | .cite => "cite"
  | .code => "code"
  | .col => "col"
  | .colgroup => "colgroup"
  | .content => "content"
  | .data => "data"
  | .datalist => "datalist"
  | .dd => "dd"
  | .del => "del"
  | .details => "details"
  | .dfn => "dfn"
  | .dialog => "dialog"
  | .dir => "dir"
  | .div => "div"
  | .dl => "dl"
  | .dt => "dt"
  | .em => "em"
  | .embed => "embed"
  | .fieldset => "fieldset"
  | .figcaption => "figcaption"
  | .figure => "figure"
  | .font => "font"
  | .footer => "footer"
  | .form => "form"
  | .frame => "frame"
  | .frameset => "frameset"
  | .h1 => "h1"
  | .head => "head"
  | .header => "header"
  | .hgroup => "hgroup"
  | .hr => "hr"
  | .html => "html"
  | .i => "i"
  | .iframe => "iframe"
  | .image => "image"
  | .img => "img"
  | .input => "input"
  | .ins => "ins"
  | .kbd => "kbd"
  | .keygen => "keygen"
  | .label => "label"
  | .legend => "legend"
  | .li => "li"
  | .link => "link"
  | .main => "main"
  | .map => "map"
  | .mark => "mark"
  | .marquee => "marquee"
  | .menu => "menu"
  | .menuitem => "menuitem"
  | .meta => "meta"
  | .meter => "meter"
  | .nav => "nav"
  | .nobr => "nobr"
  | .noembed => "noembed"
  | .noframes => "noframes"
  | .noscript => "noscript"
  | .object => "object"
  | .ol => "ol"
  | .optgroup => "optgroup"
  | .option => "option"
  | .output => "output"
  | .p => "p"
  | .param => "param"
  | .picture => "picture"
  | .plaintext => "plaintext"
  | .portal => "portal"
  | .pre => "pre"
  | .progress => "progress"
  | .q => "q"
  | .rb => "rb"
  | .rp => "rp"
  | .rt => "rt"
  | .rtc => "rtc"
  | .ruby => "ruby"
  | .s => "s"
  | .samp => "samp"
  | .script => "script"
  | .«section» => "section"
  | .select => "select"
  | .shadow => "shadow"
  | .slot => "slot"
  | .small => "small"
  | .source => "source"
  | .spacer => "spacer"
  | .span => "span"
  | .strike => "strike"
  | .strong => "strong"
  | .style => "style"
  | .sub => "sub"
  | .summary => "summary"
  | .sup => "sup"
  | .table => "table"
  | .tbody => "tbody"
  | .td => "td"
  | .template => "template"
  | .textarea => "textarea"
  | .tfoot => "tfoot"
  | .th => "th"
  | .thead => "thead"
  | .time => "time"
  | .title => "title"
  | .tr => "tr"
  | .track => "track"
  | .tt => "tt"
  | .u => "u"
  | .ul => "ul"
  | .var => "var"
  | .video => "video"
  | .wbr => "wbr"
  | .xmp => "xmp"

/-- Partial inverse of `elementCode`: the catalog variant with a given
discriminant, if any.  This is the catalog side of the reference decoder. -/
def elementOfCode : Nat → Option Element
  | 0 => some .a
  | 1 => some .abbr
  | 2 => some .acronym
  | 3 => some .address
  | 4 => some .applet
  | 5 => some .area
  | 6 => some .article
  | 7 => some .aside
  | 8 => some .audio
  | 9 => some .b
  | 10 => some .base
  | 11 => some .bdi
  | 12 => some .bdo
  | 13 => some .bgsound
  | 14 => some .big
  | 15 => some .blink
  | 16 => some .blockquote
  | 17 => some .body
  | 18 => some .br
  | 19 => some .button
  | 20 => some .canvas
  | 21 => some .caption
  | 22 => some .center
  | 23 => some .cite
  | 24 => some .code
  | 25 => some .col
  | 26 => some .colgroup
  | 27 => some .content
  | 28 => some .data
  | 29 => some .datalist
  | 30 => some .dd
  | 31 => some .del
  | 32 => some .details
  | 33 => some .dfn
  | 34 => some .dialog
  | 35 => some .dir
  | 36 => some .div
  | 37 => some .dl
  | 38 => some .dt
  | 39 => some .em
  | 40 => some .embed
  | 41 => some .fieldset
  | 42 => some .figcaption
  | 43 => some .figure
  | 44 => some .font
  | 45 => some .footer
  | 46 => some .form
  | 47 => some .frame
  | 48 => some .frameset
  | 49 => some .h1
  | 50 => some .head
  | 51 => some .header
  | 52 => some .hgroup
  | 53 => some .hr
  | 54 => some .html
  | 55 => some .i
  | 56 => some .iframe
  | 57 => some .image
  | 58 => some .img
  | 59 => some .input
  | 60 => some .ins
  | 61 => some .kbd
  | 62 => some .keygen
  | 63 => some .label
  | 64 => some .legend
  | 65 => some .li
  | 66 => some .link
  | 67 => some .main
  | 68 => some .map
  | 69 => some .mark
  | 70 => some .marquee
  | 71 => some .menu
  | 72 => some .menuitem
  | 73 => some .meta
  | 74 => some .meter
  | 75 => some .nav
  | 76 => some .nobr
  | 77 => some .noembed
  | 78 => some .noframes
  | 79 => some .noscript
  | 80 => some .object
  | 81 => some .ol
  | 82 => some .optgroup
  | 83 => some .option
  | 84 => some .output
  | 85 => some .p
  | 86 => some .param
  | 87 => some .picture
  | 88 => some .plaintext
  | 89 => some .portal
  | 90 => some .pre
  | 91 => some .progress
  | 92 => some .q
  | 93 => some .rb
  | 94 => some .rp
  | 95 => some .rt
  | 96 => some .rtc
  | 97 => some .ruby
  | 98 => some .s
  | 99 => some .samp
  | 100 => some .script
  | 101 => some .«section»
  | 102 => some .select
  | 103 => some .shadow
  | 104 => some .slot
  | 105 => some .small
  | 106 => some .source
  | 107 => some .spacer
  | 108 => some .span
  | 109 => some .strike
  | 110 => some .strong
  | 111 => some .style
  | 112 => some .sub
  | 113 => some .summary
  | 114 => some .sup
  | 115 => some .table
  | 116 => some .tbody
  | 117 => some .td
  | 118 => some .template
  | 119 => some .textarea
  | 120 => some .tfoot
  | 121 => some .th
  | 122 => some .thead
  | 123 => some .time
  | 124 => some .title
  | 125 => some .tr
  | 126 => some .track
  | 127 => some .tt
  | 128 => some .u
  | 129 => some .ul
  | 130 => some .var
  | 131 => some .video
  | 132 => some .wbr
  | 133 => some .xmp
  | _ => none
/-- Modelled from the spec: `NodeId` (§3) is "an opaque integer handle";
the interpreter interface in src/lib.rs (`SetNode(id: u32, ...)`) fixes its
width at 32 bits. -/
structure NodeId where
  val : Nat
  deriving DecidableEq

/-- Modelled from the spec: the attribute union (§2, §6) is an external
collaborator whose whole encoding contract is a single discriminant byte
(`encode_u8_discriminant` in src/element.rs); the model keeps just that
discriminant. -/
structure AnyAttribute where
  disc : Nat
  deriving DecidableEq

/-- Modelled from the spec: `NamespaceWrap<T>` (§3) pairs a tag value `T`
with a borrowed namespace string.  The field order is forced by the source:
`IntoElement for InNamespace<'a, Element>` (src/element.rs line 69) casts
`self.0` with `as u8`, so field 0 is the wrapped tag value and field 1 the
namespace string. -/
structure InNamespace (α : Type) where
  fst : α
  snd : List Nat
  deriving DecidableEq

/-- The four-variant tag union `AnyElement` of src/element.rs. -/
inductive AnyElement where
  | Element : Element → AnyElement
  | InNamespace : InNamespace Element → AnyElement
  | Str : List Nat → AnyElement
  | InNamespaceStr : InNamespace (List Nat) → AnyElement
  deriving DecidableEq

/-- The batch output buffer.  Modelled from the spec: §3 describes `Batch`
as "the mutable output buffer (ordered byte sequence)"; the source only
shows its `msg` byte vector being pushed to. -/
structure Batch where
  msg : List Nat
  deriving DecidableEq

/-- `v.msg.push(b)`: append one byte to the batch buffer. -/
def Batch.push (v : Batch) (b : Nat) : Batch :=
  ⟨v.msg ++ [b]⟩

/-- Modelled from the spec: the §4.4 string primitive emits "a length
prefix of fixed, agreed width followed by the raw bytes".  The width is
fixed at four little-endian bytes, the wasm32 `usize` of the producer, so
every representable Rust string (length < 2^32) is self-delimiting. -/
def strBytes (s : List Nat) : List Nat :=
  [s.length % 256, s.length / 256 % 256, s.length / 65536 % 256,
    s.length / 16777216 % 256] ++ s

/-- Modelled from the spec: `Batch::encode_str` (§4.4) appends the
self-delimiting encoding of a string to the buffer. -/
def Batch.encode_str (v : Batch) (s : List Nat) : Batch :=
  ⟨v.msg ++ strBytes s⟩

/-- Modelled from the spec: the optional-identifier marker (§4.3 step 1,
§9): a one-byte boolean presence flag (0 = absent, 1 = present), the
present case followed by the identifier as a fixed-width (four-byte
little-endian u32) integer, matching the name
`encode_optional_id_with_byte_bool` used in src/element.rs. -/
def optIdBytes : Option NodeId → List Nat
  | none => [0]
  | some i => [1, i.val % 256, i.val / 256 % 256, i.val / 65536 % 256,
      i.val / 16777216 % 256]

/-- Modelled from the spec: `Batch::encode_optional_id_with_byte_bool`
appends the optional-identifier marker to the buffer. -/
def Batch.encode_optional_id_with_byte_bool (v : Batch) (oid : Option NodeId) :
    Batch :=
  ⟨v.msg ++ optIdBytes oid⟩

/-- `IntoElement for Element` (src/element.rs lines 49-53):
`v.msg.push(*self as u8)`. -/
def Element.encode (e : Element) (v : Batch) : Batch :=
  v.push (elementCode e)

/-- Modelled from the spec: `AnyAttribute::encode_u8_discriminant` pushes
the single discriminant byte (cast to u8) of the attribute union (§4.3
step 4, §6). -/
def AnyAttribute.encode_u8_discriminant (a : AnyAttribute) (v : Batch) :
    Batch :=
  v.push (a.disc % 256)

/-- `AnyElement::encode` together with the four sealed `IntoElement`
impls of src/element.rs lines 25-99: catalog code pushes the code byte;
namespaced catalog pushes 255, the code byte, then the namespace string;
arbitrary string pushes 254 then the string; namespaced string pushes 253,
then `self.0` (the wrapped tag string), then `self.1` (the namespace
string). -/
def AnyElement.encode : AnyElement → Batch → Batch
  | .Element e, v => e.encode v
  | .InNamespace n, v => ((v.push 255).push (elementCode n.fst)).encode_str n.snd
  | .Str s, v => (v.push 254).encode_str s
  | .InNamespaceStr n, v => ((v.push 253).encode_str n.fst).encode_str n.snd

/-- The recursive tree builder `ElementBuilder` of src/element.rs lines
107-113: optional id, tag union, attribute list, child list.  (An
inductive rather than a structure because the children are builders.) -/
inductive ElementBuilder where
  | mk (id : Option NodeId) (kind : AnyElement)
      (attrs : List (AnyAttribute × List Nat))
      (children : List ElementBuilder)

/-- Field `id` of a builder. -/
def ElementBuilder.id : ElementBuilder → Option NodeId
  | .mk i _ _ _ => i

/-- Field `kind` of a builder. -/
def ElementBuilder.kind : ElementBuilder → AnyElement
  | .mk _ k _ _ => k

/-- Field `attrs` of a builder. -/
def ElementBuilder.attrs : ElementBuilder → List (AnyAttribute × List Nat)
  | .mk _ _ a _ => a

/-- Field `children` of a builder. -/
def ElementBuilder.children : ElementBuilder → List ElementBuilder
  | .mk _ _ _ c => c

/-- `ElementBuilder::new` (src/element.rs lines 116-123): no id, the given
kind, empty attribute and child lists. -/
def ElementBuilder.new (kind : AnyElement) : ElementBuilder :=
  .mk none kind [] []

/-- `ElementBuilder::id` (src/element.rs lines 125-128), the setter; named
`setId` here because the projection already uses the source name. -/
def ElementBuilder.setId : ElementBuilder → NodeId → ElementBuilder
  | .mk _ k a c, i => .mk (some i) k a c

/-- `ElementBuilder::attrs` (src/element.rs lines 130-133), the setter. -/
def ElementBuilder.setAttrs :
    ElementBuilder → List (AnyAttribute × List Nat) → ElementBuilder
  | .mk i k _ c, a => .mk i k a c

/-- `ElementBuilder::children` (src/element.rs lines 135-138), the
setter. -/
def ElementBuilder.setChildren :
    ElementBuilder → List ElementBuilder → ElementBuilder
  | .mk i k a _, c => .mk i k a c

/-- The attribute loop of `ElementBuilder::encode` (src/element.rs lines
146-149): for each pair push the discriminant byte, then the value
string. -/
def encodeAttrList : List (AnyAttribute × List Nat) → Batch → Batch
  | [], v => v
  | (attr, value) :: rest, v =>
      encodeAttrList rest ((attr.encode_u8_discriminant v).encode_str value)

mutual

/-- `ElementBuilder::encode` (src/element.rs lines 140-153): optional id
marker, tag, one byte `attrs.len() as u8`, one byte `children.len() as u8`
(the `as u8` casts are `% 256`), the attribute pairs, then the children
recursively. -/
def ElementBuilder.encode : ElementBuilder → Batch → Batch
  | .mk oid kind attrs children, v =>
      encodeChildrenList children
        (encodeAttrList attrs
          (((kind.encode (v.encode_optional_id_with_byte_bool oid)).push
              (attrs.length % 256)).push (children.length % 256)))
termination_by structural b _ => b

/-- The child loop of `ElementBuilder::encode` (src/element.rs lines
150-152). -/
def encodeChildrenList : List ElementBuilder → Batch → Batch
  | [], v => v
  | c :: cs, v => encodeChildrenList cs (c.encode v)
termination_by structural cs _ => cs

end
/-- The bytes `AnyElement::encode` appends for each tag-union variant
(pure mirror of the state-passing encoder). -/
def tagBytes : AnyElement → List Nat
  | .Element e => [elementCode e]
  | .InNamespace n => 255 :: elementCode n.fst :: strBytes n.snd
  | .Str s => 254 :: strBytes s
  | .InNamespaceStr n => 253 :: (strBytes n.fst ++ strBytes n.snd)

/-- The bytes one attribute pair contributes: discriminant byte, then the
value string. -/
def attrBytes (a : AnyAttribute × List Nat) : List Nat :=
  (a.1.disc % 256) :: strBytes a.2

mutual

/-- The bytes `ElementBuilder::encode` appends for one node (pure mirror
of the state-passing encoder). -/
def encBytes : ElementBuilder → List Nat
  | .mk oid kind attrs children =>
      optIdBytes oid ++ tagBytes kind ++
        [attrs.length % 256, children.length % 256] ++
        (attrs.map attrBytes).flatten ++ encBytesList children
termination_by structural b => b

/-- The bytes a child list contributes, each child subtree contiguous. -/
def encBytesList : List ElementBuilder → List Nat
  | [] => []
  | c :: cs => encBytes c ++ encBytesList cs
termination_by structural cs => cs

end

/-- The machine-representation bounds a tag union satisfies in the Rust
program: every borrowed string has a length below 2^32 (wasm32 `usize`). -/
def wfTag : AnyElement → Bool
  | .Element _ => true
  | .InNamespace n => decide (n.snd.length < 4294967296)
  | .Str s => decide (s.length < 4294967296)
  | .InNamespaceStr n =>
      decide (n.fst.length < 4294967296) && decide (n.snd.length < 4294967296)

/-- The machine-representation bound on an optional identifier: a `NodeId`
is a u32. -/
def wfId : Option NodeId → Bool
  | none => true
  | some i => decide (i.val < 4294967296)

/-- The machine-representation bound on one attribute pair: the
discriminant is a u8, the value string a Rust string. -/
def wfAttr (a : AnyAttribute × List Nat) : Bool :=
  decide (a.1.disc < 256) && decide (a.2.length < 4294967296)

mutual

/-- The round-trip hypotheses of §8 on a builder, recursively at every
node: at most 255 attributes, at most 255 children, and the
machine-representation bounds of the Rust types (u32 `NodeId`, u8
attribute discriminant, string lengths below 2^32). -/
def wfB : ElementBuilder → Bool
  | .mk oid kind attrs children =>
      wfId oid && wfTag kind &&
        decide (attrs.length ≤ 255) && attrs.all wfAttr &&
        decide (children.length ≤ 255) && wfBList children
termination_by structural b => b

/-- `wfB` at every builder of a list. -/
def wfBList : List ElementBuilder → Bool
  | [] => true
  | c :: cs => wfB c && wfBList cs
termination_by structural cs => cs

end

mutual

/-- Nesting depth of a builder (a leaf node has depth 1); the recursion
fuel the reference decoder needs. -/
def depth : ElementBuilder → Nat
  | .mk _ _ _ children => depthList children + 1
termination_by structural b => b

/-- Maximal nesting depth over a list of builders. -/
def depthList : List ElementBuilder → Nat
  | [] => 0
  | c :: cs => max (depth c) (depthList cs)
termination_by structural cs => cs

end

/-- Reference decoder, string primitive: read the four-byte little-endian
length prefix, then that many bytes (inverse of `strBytes`). -/
def decodeStr : List Nat → Option (List Nat × List Nat)
  | b0 :: b1 :: b2 :: b3 :: rest =>
      let n := b0 + 256 * b1 + 65536 * b2 + 16777216 * b3
      if n ≤ rest.length then some (rest.take n, rest.drop n) else none
  | _ => none

/-- Reference decoder, optional identifier: a 0 byte means absent, a 1
byte is followed by the four-byte little-endian identifier (inverse of
`optIdBytes`). -/
def decodeId : List Nat → Option (Option NodeId × List Nat)
  | [] => none
  | b :: rest =>
      if b = 0 then some (none, rest)
      else if b = 1 then
        match rest with
        | b0 :: b1 :: b2 :: b3 :: r =>
            some (some ⟨b0 + 256 * b1 + 65536 * b2 + 16777216 * b3⟩, r)
        | _ => none
      else none

/-- Reference decoder, tag union: 255, 254 and 253 are the reserved
discriminators for namespaced catalog, string and namespaced string tags;
any other leading byte is looked up in the catalog (inverse of
`tagBytes`). -/
def decodeTag : List Nat → Option (AnyElement × List Nat)
  | [] => none
  | c :: rest =>
      if c = 255 then
        match rest with
        | code :: r2 =>
            match elementOfCode code with
            | some e =>
                match decodeStr r2 with
                | some (ns, r3) => some (.InNamespace ⟨e, ns⟩, r3)
                | none => none
            | none => none
        | [] => none
      else if c = 254 then
        match decodeStr rest with
        | some (s, r2) => some (.Str s, r2)
        | none => none
      else if c = 253 then
        match decodeStr rest with
        | some (t, r2) =>
            match decodeStr r2 with
            | some (ns, r3) => some (.InNamespaceStr ⟨t, ns⟩, r3)
            | none => none
        | none => none
      else
        match elementOfCode c with
        | some e => some (.Element e, rest)
        | none => none

/-- Reference decoder, attribute list: read `n` (discriminant byte, value
string) pairs. -/
def decodeAttrs : Nat → List Nat → Option (List (AnyAttribute × List Nat) × List Nat)
  | 0, bytes => some ([], bytes)
  | _ + 1, [] => none
  | n + 1, d :: bytes =>
      match decodeStr bytes with
      | some (value, r) =>
          match decodeAttrs n r with
          | some (attrs, r2) => some ((⟨d⟩, value) :: attrs, r2)
          | none => none
      | none => none

/-- Reference decoder, child list: read `n` consecutive subtrees, each
with the supplied node decoder. -/
def decodeChildrenWith
    (dn : List Nat → Option (ElementBuilder × List Nat)) :
    Nat → List Nat → Option (List ElementBuilder × List Nat)
  | 0, bytes => some ([], bytes)
  | n + 1, bytes =>
      match dn bytes with
      | some (c, r) =>
          match decodeChildrenWith dn n r with
          | some (cs, r2) => some (c :: cs, r2)
          | none => none
      | none => none

/-- Reference decoder, one node: optional id, tag, attribute-count byte,
child-count byte, the attributes, then the children (inverse of the §4.3
layout).  `fuel` bounds the nesting depth. -/
def decodeNode : Nat → List Nat → Option (ElementBuilder × List Nat)
  | 0, _ => none
  | fuel + 1, bytes =>
      match decodeId bytes with
      | some (oid, r1) =>
          match decodeTag r1 with
          | some (kind, r2) =>
              match r2 with
              | na :: nc :: r3 =>
                  match decodeAttrs na r3 with
                  | some (attrs, r4) =>
                      match decodeChildrenWith (decodeNode fuel) nc r4 with
                      | some (children, r5) =>
                          some (.mk oid kind attrs children, r5)
                      | none => none
                  | none => none
              | _ => none
          | none => none
      | none => none
/-- Modelled from the spec: the events of the §5 producer/interpreter
hand-off.  `grow` is a relocation of the producer's backing memory to a
new base address; `notifyMemoryUpdated` is the explicit "memory updated"
signal (src/lib.rs `update_last_memory`) carrying the current base;
`interpreterRead` is the interpreter dereferencing the address it last
received. -/
inductive HandoffEvent where
  | grow : Nat → HandoffEvent
  | notifyMemoryUpdated : HandoffEvent
  | interpreterRead : HandoffEvent
  deriving DecidableEq

/-- Modelled from the spec: the §4.5/§5 cross-boundary state: the actual
base address of the producer's memory, and the base address the
interpreter last received through the registers. -/
structure HandoffState where
  base : Nat
  interpBase : Nat
  deriving DecidableEq

/-- Modelled from the spec: the effect of one hand-off event.  A
relocation changes the actual base; the notification publishes the actual
base to the interpreter; a read changes nothing. -/
def handoffStep : HandoffState → HandoffEvent → HandoffState
  | s, .grow b => ⟨b, s.interpBase⟩
  | s, .notifyMemoryUpdated => ⟨s.base, s.base⟩
  | s, .interpreterRead => s

/-- Modelled from the spec: the §5 notify-before-read ordering.  `dirty`
records whether a relocation may have happened since the last
notification; a run follows the protocol when no read occurs while
`dirty`. -/
def followsProtocol : Bool → List HandoffEvent → Bool
  | _, [] => true
  | _, .grow _ :: es => followsProtocol true es
  | _, .notifyMemoryUpdated :: es => followsProtocol false es
  | dirty, .interpreterRead :: es => !dirty && followsProtocol dirty es

/-- Modelled from the spec: a run is free of stale dereferences when every
read happens while the address held by the interpreter equals the actual
base of the producer's memory. -/
def noStaleDeref : HandoffState → List HandoffEvent → Bool
  | _, [] => true
  | s, e :: es =>
      (match e with
        | .interpreterRead => s.interpBase == s.base
        | _ => true) && noStaleDeref (handoffStep s e) es

/-- The namespace string of the §8 end-to-end scenario,
"http://www.w3.org/2000/svg" as UTF-8 bytes (26 of them). -/
def nsSvg : List Nat :=
  [104, 116, 116, 112, 58, 47, 47, 119, 119, 119, 46, 119, 51, 46, 111,
    114, 103, 47, 50, 48, 48, 48, 47, 115, 118, 103]

/-- The child tag string of the §8 end-to-end scenario, "custom-element"
as UTF-8 bytes (14 of them). -/
def ceName : List Nat :=
  [99, 117, 115, 116, 111, 109, 45, 101, 108, 101, 109, 101, 110, 116]

/-- The §8 end-to-end scenario builder, parameterized by the catalog
element `e` carrying the namespace and by the discriminant `d` of the
`data-x` attribute (the attribute catalog is an external collaborator):
no id, namespaced catalog tag `(e, nsSvg)`, no attributes, one string-tag
child `ceName` with the single attribute `(d, "1")`. -/
def scenarioBuilder (e : Element) (d : Nat) : ElementBuilder :=
  .mk none (.InNamespace ⟨e, nsSvg⟩) []
    [.mk none (.Str ceName) [(⟨d⟩, [49])] []]

/-- A minimal leaf builder: no id, catalog tag `a`, no attributes, no
children.  Its encoding is the four bytes [0, 0, 0, 0]. -/
def leafA : ElementBuilder :=
  .mk none (.Element .a) [] []

/-- The caller-contract-violating input of §8: a builder with exactly 256
children (each the minimal leaf) and no attributes. -/
def builder256Children : ElementBuilder :=
  .mk none (.Element .a) [] (List.replicate 256 leafA)

/-- A builder with exactly 256 attributes (empty-string values) and no
children; its attribute-count byte truncates to 0. -/
def builder256Attrs : ElementBuilder :=
  .mk none (.Element .a) (List.replicate 256 (⟨0⟩, [])) []

/-- A small concrete builder exercising every field: an id, a namespaced
catalog tag, one attribute, and one string-tag child. -/
def sampleBuilder : ElementBuilder :=
  .mk (some ⟨5⟩) (.InNamespace ⟨.div, [120]⟩) [(⟨3⟩, [49])]
    [.mk none (.Str [97]) [] []]

/-- A concrete protocol-following hand-off run: two relocations, each
notified before the subsequent reads. -/
def sampleRun : List HandoffEvent :=
  [.grow 5, .notifyMemoryUpdated, .interpreterRead, .interpreterRead,
    .grow 7, .notifyMemoryUpdated, .interpreterRead]
theorem elementCode_lt (e : Element) : elementCode e < 253 := by
  cases e <;> decide

theorem elementOfCode_elementCode (e : Element) :
    elementOfCode (elementCode e) = some e := by
  cases e <;> rfl

theorem decodeStr_strBytes (s rest : List Nat) (h : s.length < 4294967296) :
    decodeStr (strBytes s ++ rest) = some (s, rest) := by
  have hn : s.length % 256 + 256 * (s.length / 256 % 256) +
      65536 * (s.length / 65536 % 256) +
      16777216 * (s.length / 16777216 % 256) = s.length := by omega
  show decodeStr (s.length % 256 :: (s.length / 256 % 256) ::
      (s.length / 65536 % 256) :: (s.length / 16777216 % 256) :: (s ++ rest))
      = some (s, rest)
  simp only [decodeStr, hn]
  rw [if_pos (by simp)]
  rw [List.take_left, List.drop_left]

theorem decodeId_optIdBytes (oid : Option NodeId) (rest : List Nat)
    (h : wfId oid = true) :
    decodeId (optIdBytes oid ++ rest) = some (oid, rest) := by
  cases oid with
  | none => rfl
  | some i =>
      have hi : i.val < 4294967296 := by
        simpa [wfId] using h
      have hr : decodeId (optIdBytes (some i) ++ rest)
          = some (some ⟨i.val % 256 + 256 * (i.val / 256 % 256) +
              65536 * (i.val / 65536 % 256) +
              16777216 * (i.val / 16777216 % 256)⟩, rest) := rfl
      rw [hr]
      have hn : i.val % 256 + 256 * (i.val / 256 % 256) +
          65536 * (i.val / 65536 % 256) +
          16777216 * (i.val / 16777216 % 256) = i.val := by omega
      rw [hn]

theorem decodeTag_cons254 (rest : List Nat) :
    decodeTag (254 :: rest)
      = match decodeStr rest with
        | some (s, r2) => some (.Str s, r2)
        | none => none := rfl

theorem decodeTag_cons253 (rest : List Nat) :
    decodeTag (253 :: rest)
      = match decodeStr rest with
        | some (t, r2) =>
            match decodeStr r2 with
            | some (ns, r3) => some (.InNamespaceStr ⟨t, ns⟩, r3)
            | none => none
        | none => none := rfl

theorem decodeTag_tagBytes (k : AnyElement) (rest : List Nat)
    (h : wfTag k = true) :
    decodeTag (tagBytes k ++ rest) = some (k, rest) := by
  cases k with
  | Element e =>
      have hc := elementCode_lt e
      show decodeTag (elementCode e :: rest) = some (.Element e, rest)
      simp only [decodeTag]
      rw [if_neg (by omega), if_neg (by omega), if_neg (by omega),
        elementOfCode_elementCode]
  | InNamespace n =>
      obtain ⟨e, ns⟩ := n
      have hns : ns.length < 4294967296 := by
        simpa [wfTag] using h
      show decodeTag (255 :: elementCode e :: (strBytes ns ++ rest))
          = some (.InNamespace ⟨e, ns⟩, rest)
      simp only [decodeTag, if_pos]
      rw [elementOfCode_elementCode, decodeStr_strBytes ns rest hns]
  | Str s =>
      have hs : s.length < 4294967296 := by
        simpa [wfTag] using h
      show decodeTag (254 :: (strBytes s ++ rest)) = some (.Str s, rest)
      rw [decodeTag_cons254, decodeStr_strBytes s rest hs]
  | InNamespaceStr n =>
      obtain ⟨t, ns⟩ := n
      have ht : t.length < 4294967296 ∧ ns.length < 4294967296 := by
        simpa [wfTag] using h
      have hsplit : tagBytes (AnyElement.InNamespaceStr ⟨t, ns⟩) ++ rest
          = 253 :: (strBytes t ++ (strBytes ns ++ rest)) := by
        simp [tagBytes]
      rw [hsplit, decodeTag_cons253, decodeStr_strBytes t _ ht.1]
      show (match decodeStr (strBytes ns ++ rest) with
        | some (ns2, r3) => some (AnyElement.InNamespaceStr ⟨t, ns2⟩, r3)
        | none => none) = some (.InNamespaceStr ⟨t, ns⟩, rest)
      rw [decodeStr_strBytes ns rest ht.2]

theorem decodeAttrs_flatten (l : List (AnyAttribute × List Nat))
    (rest : List Nat) (h : ∀ a ∈ l, wfAttr a = true) :
    decodeAttrs l.length ((l.map attrBytes).flatten ++ rest)
      = some (l, rest) := by
  induction l generalizing rest with
  | nil => rfl
  | cons a l ih =>
      obtain ⟨⟨d⟩, value⟩ := a
      have ha := h _ (List.mem_cons_self _ _)
      simp only [wfAttr, Bool.and_eq_true, decide_eq_true_eq] at ha
      obtain ⟨hd, hv⟩ := ha
      have hsplit : ((((⟨d⟩, value) :: l).map attrBytes).flatten ++ rest)
          = (d % 256) :: (strBytes value ++ ((l.map attrBytes).flatten ++ rest)) := by
        simp [attrBytes]
      rw [List.length_cons, hsplit, Nat.mod_eq_of_lt hd]
      simp only [decodeAttrs]
      rw [decodeStr_strBytes value _ hv]
      show (match decodeAttrs l.length ((l.map attrBytes).flatten ++ rest) with
        | some (attrs, r2) => some ((⟨d⟩, value) :: attrs, r2)
        | none => none) = some ((⟨d⟩, value) :: l, rest)
      rw [ih rest (fun a ha => h a (List.mem_cons_of_mem _ ha))]
theorem encode_tag_msg (a : AnyElement) (v : Batch) :
    (AnyElement.encode a v).msg = v.msg ++ tagBytes a := by
  cases a with
  | Element e =>
      simp [AnyElement.encode, Element.encode, Batch.push, tagBytes]
  | InNamespace n =>
      simp [AnyElement.encode, Batch.push, Batch.encode_str, tagBytes]
  | Str s =>
      simp [AnyElement.encode, Batch.push, Batch.encode_str, tagBytes]
  | InNamespaceStr n =>
      simp [AnyElement.encode, Batch.push, Batch.encode_str, tagBytes]

theorem encodeAttrList_msg (l : List (AnyAttribute × List Nat)) (v : Batch) :
    (encodeAttrList l v).msg = v.msg ++ (l.map attrBytes).flatten := by
  induction l generalizing v with
  | nil => simp [encodeAttrList]
  | cons a l ih =>
      obtain ⟨attr, value⟩ := a
      simp [encodeAttrList, ih, AnyAttribute.encode_u8_discriminant,
        Batch.push, Batch.encode_str, attrBytes]

theorem encode_msg_aux : ∀ n : Nat,
    (∀ b : ElementBuilder, sizeOf b ≤ n → ∀ v : Batch,
      (b.encode v).msg = v.msg ++ encBytes b) ∧
    (∀ cs : List ElementBuilder, sizeOf cs ≤ n → ∀ v : Batch,
      (encodeChildrenList cs v).msg = v.msg ++ encBytesList cs) := by
  intro n
  induction n with
  | zero =>
      constructor
      · intro b hb
        exfalso
        cases b with
        | mk oid kind attrs children => simp at hb
      · intro cs hcs
        exfalso
        cases cs with
        | nil => simp at hcs
        | cons c cs => simp at hcs
  | succ n ih =>
      obtain ⟨ihb, ihcs⟩ := ih
      constructor
      · intro b hb v
        cases b with
        | mk oid kind attrs children =>
            simp only [ElementBuilder.mk.sizeOf_spec] at hb
            have hc : sizeOf children ≤ n := by omega
            simp only [ElementBuilder.encode, encBytes]
            rw [ihcs children hc, encodeAttrList_msg]
            simp [Batch.push, encode_tag_msg,
              Batch.encode_optional_id_with_byte_bool]
      · intro cs hcs v
        cases cs with
        | nil => simp [encodeChildrenList, encBytesList]
        | cons c cs' =>
            simp only [List.cons.sizeOf_spec] at hcs
            have h1 : sizeOf c ≤ n := by omega
            have h2 : sizeOf cs' ≤ n := by omega
            simp only [encodeChildrenList, encBytesList]
            rw [ihcs cs' h2, ihb c h1, List.append_assoc]

theorem encode_msg (b : ElementBuilder) (v : Batch) :
    (b.encode v).msg = v.msg ++ encBytes b :=
  (encode_msg_aux (sizeOf b)).1 b le_rfl v

theorem encodeChildrenList_msg (cs : List ElementBuilder) (v : Batch) :
    (encodeChildrenList cs v).msg = v.msg ++ encBytesList cs :=
  (encode_msg_aux (sizeOf cs)).2 cs le_rfl v

theorem encBytesList_eq_flatten (cs : List ElementBuilder) :
    encBytesList cs = (cs.map encBytes).flatten := by
  induction cs with
  | nil => simp [encBytesList]
  | cons c cs ih => simp [encBytesList, ih]
theorem decode_aux : ∀ n : Nat,
    (∀ b : ElementBuilder, sizeOf b ≤ n → wfB b = true →
      ∀ fuel : Nat, depth b ≤ fuel → ∀ rest : List Nat,
        decodeNode fuel (encBytes b ++ rest) = some (b, rest)) ∧
    (∀ cs : List ElementBuilder, sizeOf cs ≤ n → wfBList cs = true →
      ∀ fuel : Nat, depthList cs ≤ fuel → ∀ rest : List Nat,
        decodeChildrenWith (decodeNode fuel) cs.length
            (encBytesList cs ++ rest)
          = some (cs, rest)) := by
  intro n
  induction n with
  | zero =>
      constructor
      · intro b hb
        exfalso
        cases b with
        | mk oid kind attrs children => simp at hb
      · intro cs hcs
        exfalso
        cases cs with
        | nil => simp at hcs
        | cons c cs => simp at hcs
  | succ n ih =>
      obtain ⟨ihb, ihcs⟩ := ih
      constructor
      · intro b hb hw fuel hf rest
        cases b with
        | mk oid kind attrs children =>
        simp only [ElementBuilder.mk.sizeOf_spec] at hb
        have hcsize : sizeOf children ≤ n := by omega
        simp only [wfB, Bool.and_eq_true, List.all_eq_true,
          decide_eq_true_eq] at hw
        obtain ⟨⟨⟨⟨⟨hid, htag⟩, hal⟩, hattrs⟩, hcl⟩, hch⟩ := hw
        cases fuel with
        | zero =>
            exfalso
            simp only [depth] at hf
            omega
        | succ f =>
        have hdl : depthList children ≤ f := by
          simp only [depth] at hf
          omega
        have ha256 : attrs.length % 256 = attrs.length :=
          Nat.mod_eq_of_lt (by omega)
        have hc256 : children.length % 256 = children.length :=
          Nat.mod_eq_of_lt (by omega)
        have hbytes : encBytes (.mk oid kind attrs children) ++ rest
            = optIdBytes oid ++ (tagBytes kind ++
              ((attrs.length % 256) :: (children.length % 256) ::
                ((attrs.map attrBytes).flatten ++
                  (encBytesList children ++ rest)))) := by
          simp [encBytes]
        rw [hbytes]
        simp only [decodeNode, decodeId_optIdBytes _ _ hid,
          decodeTag_tagBytes _ _ htag, ha256, hc256,
          decodeAttrs_flatten attrs _ hattrs,
          ihcs children hcsize hch f hdl rest]
      · intro cs hsz hw fuel hdl rest
        cases cs with
        | nil => simp [encBytesList, decodeChildrenWith]
        | cons c cs' =>
            simp only [List.cons.sizeOf_spec] at hsz
            have h1 : sizeOf c ≤ n := by omega
            have h2 : sizeOf cs' ≤ n := by omega
            simp only [wfBList, Bool.and_eq_true] at hw
            obtain ⟨hwc, hwcs⟩ := hw
            simp only [depthList, Nat.max_le] at hdl
            obtain ⟨hdc, hdcs⟩ := hdl
            have hsplit : encBytesList (c :: cs') ++ rest
                = encBytes c ++ (encBytesList cs' ++ rest) := by
              simp [encBytesList]
            rw [List.length_cons, hsplit]
            simp only [decodeChildrenWith, ihb c h1 hwc fuel hdc,
              ihcs cs' h2 hwcs fuel hdcs rest]
theorem no_stale_aux (es : List HandoffEvent) :
    ∀ (dirty : Bool) (s : HandoffState),
      followsProtocol dirty es = true →
      (dirty = false → s.interpBase = s.base) →
      noStaleDeref s es = true := by
  induction es with
  | nil => intro dirty s _ _; rfl
  | cons e es ih =>
      intro dirty s hp hinv
      cases e with
      | grow b =>
          simp only [followsProtocol] at hp
          simp only [noStaleDeref, handoffStep, Bool.true_and]
          exact ih true ⟨b, s.interpBase⟩ hp (by simp)
      | notifyMemoryUpdated =>
          simp only [followsProtocol] at hp
          simp only [noStaleDeref, handoffStep, Bool.true_and]
          exact ih false ⟨s.base, s.base⟩ hp (fun _ => rfl)
      | interpreterRead =>
          simp only [followsProtocol, Bool.and_eq_true,
            Bool.not_eq_true'] at hp
          obtain ⟨hd, hp⟩ := hp
          subst hd
          have hsync := hinv rfl
          simp only [noStaleDeref, handoffStep, hsync, beq_self_eq_true,
            Bool.true_and]
          exact ih false s hp fun _ => hsync

/-- C1: for every builder satisfying the §8 round-trip hypotheses — at
most 255 attributes and at most 255 children at every node, together with
the machine-representation bounds of the Rust types (u32 `NodeId`, u8
attribute discriminant, string lengths below 2^32) — encoding with
`ElementBuilder::encode` and then running the reference decoder (with
fuel at least the nesting depth) reproduces the original tag, optional
identifier, attribute list and child list exactly, leaving any trailing
bytes untouched. -/
theorem encode_then_decode_roundtrip (b : ElementBuilder) (fuel : Nat)
    (rest : List Nat) (hw : wfB b = true) (hf : depth b ≤ fuel) :
    decodeNode fuel ((b.encode (Batch.mk [])).msg ++ rest)
      = some (b, rest) := by
  rw [encode_msg]
  simpa using (decode_aux (sizeOf b)).1 b le_rfl hw fuel hf rest

/-- C1 witness: the round-trip theorem at a concrete builder carrying an
identifier, a namespaced catalog tag, one attribute and one string-tag
child, with three trailing bytes. -/
theorem encode_then_decode_roundtrip_witness :
    wfB sampleBuilder = true ∧ depth sampleBuilder ≤ 2 ∧
      decodeNode 2 ((sampleBuilder.encode (Batch.mk [])).msg ++ [7, 7, 7])
        = some (sampleBuilder, [7, 7, 7]) :=
  ⟨by decide, by decide,
    encode_then_decode_roundtrip sampleBuilder 2 [7, 7, 7]
      (by decide) (by decide)⟩
theorem encBytes_leafA : encBytes leafA = [0, 0, 0, 0] := rfl

theorem encBytesList_replicate_leafA (n : Nat) :
    encBytesList (List.replicate n leafA)
      = (List.replicate n [0, 0, 0, 0]).flatten := by
  induction n with
  | zero => rfl
  | succ n ih =>
      simp [List.replicate_succ, encBytesList, ih, encBytes_leafA]

/-- C2: evaluation of the encoder at the claim's failing input.  A builder
with exactly 256 children does not fail: `ElementBuilder::encode` has no
error path, and its output is the four header bytes — no-id marker 0, tag
byte 0, attribute-count byte 0, child-count byte 256 % 256 = 0 — followed
by all 256 four-byte child subtrees.  The child count is silently
truncated in the count byte instead of being rejected with
`LimitExceeded`. -/
theorem encode_256_children_truncates :
    builder256Children.children.length = 256 ∧
      (builder256Children.encode (Batch.mk [])).msg
        = [0, 0, 0, 0] ++ (List.replicate 256 [0, 0, 0, 0]).flatten := by
  constructor
  · simp [-List.reduceReplicate, builder256Children, ElementBuilder.children]
  · rw [encode_msg]
    simp [-List.reduceReplicate, builder256Children, encBytes, optIdBytes,
      tagBytes, elementCode, encBytesList_replicate_leafA]

/-- C3 counterexample: for the namespaced-string tag with wrapped tag
string "t" (byte 116) and namespace string "n" (byte 110), the encoder
does not emit the namespace string before the tag string after the 253
discriminator, contradicting the claimed order. -/
theorem tag_encode_253_order_counterexample :
    (AnyElement.encode (.InNamespaceStr ⟨[116], [110]⟩) (Batch.mk [])).msg
      ≠ 253 :: (strBytes [110] ++ strBytes [116]) := by
  decide

/-- C3 (amended): per-variant byte layout of the tag-union encoder: a
catalog code emits the code byte; a namespaced catalog code emits 255,
the code byte, then the namespace string; an arbitrary string emits 254
then the string; a namespaced arbitrary string emits 253, then the
wrapped tag string, then the namespace string (tag before namespace). -/
theorem tag_encode_per_variant :
    (∀ (e : Element) (v : Batch),
      (AnyElement.encode (.Element e) v).msg = v.msg ++ [elementCode e]) ∧
    (∀ (e : Element) (ns : List Nat) (v : Batch),
      (AnyElement.encode (.InNamespace ⟨e, ns⟩) v).msg
        = v.msg ++ 255 :: elementCode e :: strBytes ns) ∧
    (∀ (s : List Nat) (v : Batch),
      (AnyElement.encode (.Str s) v).msg = v.msg ++ 254 :: strBytes s) ∧
    (∀ (t ns : List Nat) (v : Batch),
      (AnyElement.encode (.InNamespaceStr ⟨t, ns⟩) v).msg
        = v.msg ++ 253 :: (strBytes t ++ strBytes ns)) := by
  refine ⟨fun e v => ?_, fun e ns v => ?_, fun s v => ?_, fun t ns v => ?_⟩ <;>
    simp [AnyElement.encode, Element.encode, Batch.push, Batch.encode_str]

/-- C4 counterexample: a builder with 256 attributes emits 0, not 256, as
the byte at the attribute-count position (position 2, after the one-byte
no-id marker and the one-byte catalog tag), so the count byte is not
"equal to the attribute count" for every node. -/
theorem attr_count_byte_truncation_counterexample :
    builder256Attrs.attrs.length = 256 ∧
      ((builder256Attrs.encode (Batch.mk [])).msg.drop 2).head? = some 0 ∧
      ((builder256Attrs.encode (Batch.mk [])).msg.drop 2).head?
        ≠ some builder256Attrs.attrs.length := by
  have hlen : builder256Attrs.attrs.length = 256 := by
    simp [-List.reduceReplicate, builder256Attrs, ElementBuilder.attrs]
  have hmsg : (builder256Attrs.encode (Batch.mk [])).msg
      = 0 :: 0 :: 0 :: 0 ::
        (List.replicate 256 (attrBytes (⟨0⟩, ([] : List Nat)))).flatten := by
    rw [encode_msg]
    simp [-List.reduceReplicate, builder256Attrs, encBytes, optIdBytes,
      tagBytes, elementCode, encBytesList, List.map_replicate]
  refine ⟨hlen, ?_, ?_⟩
  · rw [hmsg]
    rfl
  · rw [hmsg, hlen]
    simp [-List.reduceReplicate]

/-- C4 (amended): for every node whose attribute and child counts are at
most 255 (the §3 data-model bound; larger counts wrap modulo 256), the
encoder emits, in order: the optional-id marker, the tag bytes, one byte
equal to the attribute count immediately followed by one byte equal to
the child count, the (discriminant, value-string) attribute pairs in
declaration order, then the children in declaration order, each child
subtree contiguous and recursively in the same layout. -/
theorem encode_field_order (oid : Option NodeId) (kind : AnyElement)
    (attrs : List (AnyAttribute × List Nat)) (children : List ElementBuilder)
    (v : Batch) (ha : attrs.length ≤ 255) (hc : children.length ≤ 255) :
    (ElementBuilder.encode (.mk oid kind attrs children) v).msg
      = v.msg ++ optIdBytes oid ++ tagBytes kind ++
          [attrs.length, children.length] ++ (attrs.map attrBytes).flatten ++
          (children.map (fun c => (c.encode (Batch.mk [])).msg)).flatten := by
  have hmap : children.map (fun c => (c.encode (Batch.mk [])).msg)
      = children.map encBytes := by
    apply List.map_congr_left
    intro c _
    rw [encode_msg]
    simp
  have h1 : attrs.length % 256 = attrs.length := Nat.mod_eq_of_lt (by omega)
  have h2 : children.length % 256 = children.length :=
    Nat.mod_eq_of_lt (by omega)
  rw [encode_msg, hmap, ← encBytesList_eq_flatten]
  simp only [encBytes, h1, h2]
  simp
set_option maxRecDepth 4000 in
/-- C5: the tag catalog has 134 entries, and every catalog discriminant
`e as u8` lies in [0, 253): no catalog code collides with the reserved
discriminator bytes 253, 254 and 255. -/
theorem catalog_codes_below_253 :
    Fintype.card Element = 134 ∧ ∀ e : Element, elementCode e < 253 :=
  ⟨by decide, elementCode_lt⟩

set_option maxRecDepth 4000 in
/-- C6 counterexample: the tag catalog of src/element.rs contains no
entry named "svg", so no builder can carry "the svg catalog code" after
the namespaced-catalog discriminator byte 255 — the claimed byte sequence
names a catalog code that does not exist. -/
theorem no_svg_catalog_entry : ¬ ∃ e : Element, elementName e = "svg" := by
  decide

/-- C6 (amended): for every catalog element `e` (in place of the
non-existent svg catalog entry) and every attribute discriminant `d`, the
builder with namespaced catalog tag `(e, "http://www.w3.org/2000/svg")`,
no identifier, zero attributes and one string-tag child "custom-element"
carrying one attribute `(d, "1")` encodes exactly to: no-id marker, byte
255, the catalog code of `e`, length 26 and the 26 namespace bytes, count
bytes 0 and 1, then the child: no-id marker, byte 254, length 14 and the
14 tag bytes, count bytes 1 and 0, the attribute discriminant byte, and
the string-encoded value "1" (byte 49). -/
theorem scenario_encoding (e : Element) (d : Nat) :
    ((scenarioBuilder e d).encode (Batch.mk [])).msg
      = [0, 255, elementCode e, 26, 0, 0, 0] ++ nsSvg ++ [0, 1] ++
          [0, 254, 14, 0, 0, 0] ++ ceName ++ [1, 0, d % 256, 1, 0, 0, 0, 49] := by
  rw [encode_msg]
  simp [scenarioBuilder, encBytes, encBytesList, optIdBytes, tagBytes,
    strBytes, attrBytes, nsSvg, ceName]

/-- C7: the tag-union encoder is total (no error path exists for any of
the four variants) and its only effect on the batch is to append the
variant's bytes: the buffer afterwards is exactly the old buffer followed
by `tagBytes`, so no previously written byte changes; the batch carries no
other state. -/
theorem tag_union_encode_appends (a : AnyElement) (v : Batch) :
    AnyElement.encode a v = Batch.mk (v.msg ++ tagBytes a) := by
  have h := encode_tag_msg a v
  cases henc : AnyElement.encode a v with
  | mk msg => rw [henc] at h; simpa using h

/-- C8: builder construction is purely additive and unvalidated:
`ElementBuilder::new` yields no identifier, the given kind, and empty
attribute and child lists; each setter (`id`, `attrs`, `children`) sets
only its own field and leaves the other three fields unchanged; all four
operations are total, so no input is validated or rejected. -/
theorem builder_construction_unvalidated :
    (∀ k : AnyElement, (ElementBuilder.new k).id = none ∧
      (ElementBuilder.new k).kind = k ∧ (ElementBuilder.new k).attrs = [] ∧
      (ElementBuilder.new k).children = []) ∧
    (∀ (b : ElementBuilder) (i : NodeId), (b.setId i).id = some i ∧
      (b.setId i).kind = b.kind ∧ (b.setId i).attrs = b.attrs ∧
      (b.setId i).children = b.children) ∧
    (∀ (b : ElementBuilder) (l : List (AnyAttribute × List Nat)),
      (b.setAttrs l).attrs = l ∧ (b.setAttrs l).id = b.id ∧
      (b.setAttrs l).kind = b.kind ∧ (b.setAttrs l).children = b.children) ∧
    (∀ (b : ElementBuilder) (l : List ElementBuilder),
      (b.setChildren l).children = l ∧ (b.setChildren l).id = b.id ∧
      (b.setChildren l).kind = b.kind ∧ (b.setChildren l).attrs = b.attrs) := by
  refine ⟨fun k => ⟨rfl, rfl, rfl, rfl⟩, fun b i => ?_, fun b l => ?_,
    fun b l => ?_⟩ <;>
  · cases b
    exact ⟨rfl, rfl, rfl, rfl⟩

/-- C9: in every producer/interpreter hand-off run that follows the
notify-before-read ordering (no read while a relocation is unnotified),
started from a state where the interpreter holds the current base
address, the interpreter never dereferences a stale address: every read
happens while its address equals the producer's actual base. -/
theorem no_stale_dereference (s : HandoffState) (es : List HandoffEvent)
    (h0 : s.interpBase = s.base) (hp : followsProtocol false es = true) :
    noStaleDeref s es = true :=
  no_stale_aux es false s hp fun _ => h0

/-- C9 witness: the protocol theorem at a concrete run with two
relocations, each notified before the subsequent reads. -/
theorem no_stale_dereference_witness :
    (HandoffState.mk 0 0).interpBase = (HandoffState.mk 0 0).base ∧
      followsProtocol false sampleRun = true ∧
      noStaleDeref ⟨0, 0⟩ sampleRun = true :=
  ⟨rfl, by decide, no_stale_dereference ⟨0, 0⟩ sampleRun rfl (by decide)⟩

/-- C10: `ElementBuilder::encode` is total (it never fails, whatever the
list lengths) and the two count bytes it emits are the attribute count
modulo 256 and the child count modulo 256; in particular the builder with
exactly 256 children emits child-count byte 0 (at position 3, after no-id
marker, tag byte and attribute-count byte) while the encoding still
carries all 256 four-byte child subtrees (1028 bytes in total). -/
theorem count_bytes_mod_256 :
    (∀ (oid : Option NodeId) (kind : AnyElement)
        (attrs : List (AnyAttribute × List Nat))
        (children : List ElementBuilder) (v : Batch),
      (ElementBuilder.encode (.mk oid kind attrs children) v).msg
        = v.msg ++ optIdBytes oid ++ tagBytes kind ++
            [attrs.length % 256, children.length % 256] ++
            (attrs.map attrBytes).flatten ++ encBytesList children) ∧
    ((builder256Children.encode (Batch.mk [])).msg.drop 3).head? = some 0 ∧
    (builder256Children.encode (Batch.mk [])).msg.length = 1028 := by
  refine ⟨fun oid kind attrs children v => ?_, ?_, ?_⟩
  · rw [encode_msg]
    simp [encBytes]
  · rw [encode_msg]
    rw [show encBytes builder256Children
        = [0, 0, 0, 0] ++ (List.replicate 256 [0, 0, 0, 0]).flatten from ?_]
    · rfl
    · rw [show builder256Children = ElementBuilder.mk none (.Element .a) []
          (List.replicate 256 leafA) from rfl]
      simp only [encBytes]
      rw [encBytesList_replicate_leafA]
      simp [-List.reduceReplicate, optIdBytes, tagBytes, elementCode]
  · rw [encode_msg]
    rw [show encBytes builder256Children
        = [0, 0, 0, 0] ++ (List.replicate 256 [0, 0, 0, 0]).flatten from ?_]
    · simp [-List.reduceReplicate, List.length_flatten,
        List.map_replicate]
    · rw [show builder256Children = ElementBuilder.mk none (.Element .a) []
          (List.replicate 256 leafA) from rfl]
      simp only [encBytes]
      rw [encBytesList_replicate_leafA]
      simp [-List.reduceReplicate, optIdBytes, tagBytes, elementCode]
/-- C4 witness: the field-order theorem at a concrete node with one
attribute, no children, and a non-empty starting buffer. -/
theorem encode_field_order_witness :
    ([((⟨2⟩ : AnyAttribute), ([49] : List Nat))].length ≤ 255) ∧
      (([] : List ElementBuilder).length ≤ 255) ∧
      (ElementBuilder.encode
          (.mk none (.Element .a) [(⟨2⟩, [49])] []) (Batch.mk [9])).msg
        = [9] ++ optIdBytes none ++ tagBytes (.Element .a) ++ [1, 0] ++
            ([((⟨2⟩ : AnyAttribute), ([49] : List Nat))].map attrBytes).flatten ++
            (([] : List ElementBuilder).map
              (fun c => (c.encode (Batch.mk [])).msg)).flatten :=
  ⟨by decide, by decide,
    encode_field_order none (.Element .a) [(⟨2⟩, [49])] [] (Batch.mk [9])
      (by decide) (by decide)⟩
